/-
Verification of the extraction and normalization layer of a cricket
live-score scraping service.

The development shallowly embeds the Python source of the service:
  - strings are Lean Strings (the inputs of interest are ASCII, so the
    ASCII case conversions and digit classes model the Python ones);
  - machine floats are modelled as exact rationals;
  - the parsed HTML document is a tree (the Node type below) and the
    BeautifulSoup operations the code uses (find_all with tag, class
    and string filters, get_text, the string and parent properties)
    are defined over that tree;
  - decoded JSON payloads are JVal values (JSON booleans are not
    modelled: no behaviour under study depends on them);
  - caught exceptions are modelled with Option (none = the exception
    the surrounding handler catches); paths on which the Python code
    would raise an uncaught error (for example attribute access on a
    non-dict where the except clause lists only KeyError, TypeError
    and ValueError) are modelled as extraction failure, and each such
    modelling decision is noted at the definition it concerns.
-/
import Mathlib

/-! ## String utilities modelling the Python string operations used -/

/-- Whitespace class of Python str.strip and of the regex class for spaces. -/
def pyWsChar (c : Char) : Bool :=
  c == ' ' || c == '\t' || c == '\n' || c == '\r' || c == '\x0b' || c == '\x0c'

/-- Python str.strip with no argument. -/
def pyStrip (s : String) : String :=
  (((s.data.dropWhile pyWsChar).reverse.dropWhile pyWsChar).reverse).asString

/-- Python str.lower on ASCII text. -/
def pyLower (s : String) : String :=
  (s.data.map Char.toLower).asString

/-- Does the list start with the given needle. -/
def listStarts : List Char → List Char → Bool
  | [], _ => true
  | _ :: _, [] => false
  | a :: as, b :: bs => a == b && listStarts as bs

/-- Occurrence of the needle anywhere in the haystack: the Python
substring test (needle in haystack). -/
def listHasSub (needle : List Char) : List Char → Bool
  | [] => needle.isEmpty
  | b :: bs => listStarts needle (b :: bs) || listHasSub needle bs

/-- Python substring containment: strHasSub needle hay models (needle in hay). -/
def strHasSub (needle hay : String) : Bool :=
  listHasSub needle.data hay.data

/-- Replacement of every non-overlapping occurrence of a nonempty
pattern, left to right; the fuel is the length of the scanned text. -/
def replaceGo (pat repl : List Char) : Nat → List Char → List Char
  | 0, l => l
  | _, [] => []
  | fuel + 1, c :: t =>
    if listStarts pat (c :: t) && !pat.isEmpty then
      repl ++ replaceGo pat repl fuel ((c :: t).drop pat.length)
    else c :: replaceGo pat repl fuel t

/-- Python str.replace with a nonempty pattern. -/
def pyReplace (s pat repl : String) : String :=
  (replaceGo pat.data repl.data s.data.length s.data).asString

/-- Split on every non-overlapping occurrence of a nonempty separator,
left to right; the fuel is the length of the scanned text. -/
def splitOnGo (sep : List Char) : Nat → List Char → List Char → List (List Char)
  | 0, cur, l => [cur.reverse ++ l]
  | _, cur, [] => [cur.reverse]
  | fuel + 1, cur, c :: t =>
    if listStarts sep (c :: t) then
      cur.reverse :: splitOnGo sep fuel [] ((c :: t).drop sep.length)
    else splitOnGo sep fuel (c :: cur) t

/-- Python str.split with a nonempty separator. -/
def pySplit (s sep : String) : List String :=
  (splitOnGo sep.data s.data.length [] s.data).map List.asString

/-- Numeric value of a run of ASCII digits. -/
def natOfDigits (l : List Char) : Nat :=
  l.foldl (fun n c => n * 10 + (c.toNat - 48)) 0

/-- Python str.isdigit on ASCII text: nonempty and all digits. -/
def pyStrIsdigit (s : String) : Bool :=
  !s.data.isEmpty && s.data.all Char.isDigit

/-- Number of dots in a string. -/
def dotCount (s : String) : Nat :=
  s.data.count '.'

/-- Rational value of a numeric token of the shape digits, optional dot,
digits (at least one digit overall), as matched by the number regex and
by the guarded float conversions. Tokens of any other shape (for
example two dots) map to 0; every use site either guards the shape or
notes the deviation. -/
def qOfNumToken (s : String) : ℚ :=
  match pySplit s "." with
  | [a] => (natOfDigits a.data : ℚ)
  | [a, b] => (natOfDigits a.data : ℚ) + (natOfDigits b.data : ℚ) / ((10 : ℚ) ^ b.length)
  | _ => 0

/-- The guard the scraper wraps around float(): text whose dot-free form
is a nonempty digit string. -/
def floatGuard (s : String) : Bool :=
  pyStrIsdigit (pyReplace s "." "")

/-- Models the scraper idiom (int(t) if t.isdigit() else 0): int() cannot
raise once the guard holds. -/
def coerceInt (s : String) : Int :=
  if pyStrIsdigit s then (natOfDigits s.data : Int) else 0

/-- Models the scraper idiom (float(t) if t.replace(".", "").isdigit()
else 0.0).  none models the ValueError float() raises when the guard
passed with two or more dots in the text; the callers catch it and skip
the whole row. -/
def coerceFloat? (s : String) : Option ℚ :=
  if floatGuard s then
    (if dotCount s ≤ 1 then some (qOfNumToken s) else none)
  else some 0

/-- Python int(str): strip, optional sign, all digits. none = ValueError. -/
def pyIntOfStr? (s : String) : Option Int :=
  match (pyStrip s).data with
  | '-' :: r => if r.isEmpty || !(r.all Char.isDigit) then none else some (-(natOfDigits r : Int))
  | '+' :: r => if r.isEmpty || !(r.all Char.isDigit) then none else some ((natOfDigits r : Int))
  | r => if r.isEmpty || !(r.all Char.isDigit) then none else some ((natOfDigits r : Int))

/-- Python float(str) on the decimal forms digits, digits.digits, .digits
and digits. (exponents, inf and nan are not modelled). none = ValueError. -/
def pyFloatOfStr? (s : String) : Option ℚ :=
  let t := (pyStrip s).data
  let core : List Char → Option ℚ := fun u =>
    let ip := u.takeWhile Char.isDigit
    let r1 := u.drop ip.length
    match r1 with
    | [] => if ip.isEmpty then none else some ((natOfDigits ip : ℚ))
    | '.' :: r2 =>
      let fp := r2.takeWhile Char.isDigit
      if !(r2.drop fp.length).isEmpty then none
      else if ip.isEmpty && fp.isEmpty then none
      else some ((natOfDigits ip : ℚ) + (natOfDigits fp : ℚ) / ((10 : ℚ) ^ fp.length))
    | _ => none
  match t with
  | '-' :: r => (core r).map (fun q => -q)
  | '+' :: r => core r
  | r => core r

/-- Round-half-to-even on rationals, the rounding Python round() uses
(modelled on exact rationals; binary floating point representation
artifacts are outside the model). -/
def roundHalfEven (q : ℚ) : Int :=
  let f := ⌊q⌋
  let r := q - (f : ℚ)
  if r < 1 / 2 then f
  else if 1 / 2 < r then f + 1
  else if f % 2 = 0 then f else f + 1

/-- Python round(x, 2) under exact rational arithmetic. -/
def round2 (q : ℚ) : ℚ :=
  ((roundHalfEven (q * 100) : ℚ)) / 100

/-- Leftmost occurrence of the pattern /live-cricket-scores/ followed by
one or more digits; yields the value of the maximal digit run, as
re.search of the pattern with one capture group does. -/
def liveIdScan : List Char → Option Nat
  | [] => none
  | c :: t =>
    if listStarts "/live-cricket-scores/".data (c :: t) then
      let rest := (c :: t).drop 21
      let ds := rest.takeWhile Char.isDigit
      if ds.isEmpty then liveIdScan t else some (natOfDigits ds)
    else liveIdScan t

/-- Match id from an href, as the search for /live-cricket-scores/ and a
digit group extracts it. -/
def findLiveScoreId (s : String) : Option Nat :=
  liveIdScan s.data

/-- Does any position of the character list satisfy the given
position-anchored matcher: models re.search. -/
def scanAny (p : List Char → Bool) : List Char → Bool
  | [] => p []
  | c :: t => p (c :: t) || scanAny p t

/-- Case-insensitive AM or PM at the head. -/
def amPmAt : List Char → Bool
  | a :: m :: _ =>
    ((a == 'A' || a == 'a') || (a == 'P' || a == 'p')) && (m == 'M' || m == 'm')
  | _ => false

/-- Colon, two digits, optional whitespace, AM or PM at the head. -/
def clockTail (l : List Char) : Bool :=
  match l with
  | ':' :: d3 :: d4 :: r => d3.isDigit && d4.isDigit && amPmAt (r.dropWhile pyWsChar)
  | _ => false

/-- One or two digits, colon, two digits, optional whitespace, AM or PM
anchored at the head: the clock-time regex at one position. -/
def clockAt : List Char → Bool
  | d1 :: rest =>
    d1.isDigit && (clockTail rest ||
      (match rest with
       | d2 :: r2 => d2.isDigit && clockTail r2
       | [] => false))
  | [] => false

/-- The live-listing time regex: a clock time, or Today or Tomorrow,
case-insensitively, anywhere in the text. -/
def timePatternListing (s : String) : Bool :=
  scanAny clockAt s.data || strHasSub "today" (pyLower s) || strHasSub "tomorrow" (pyLower s)

/-- The match-page time regex: a clock time anywhere in the text. -/
def timePatternClock (s : String) : Bool :=
  scanAny clockAt s.data

/-- The result regex (won by, digits, run or wicket) at one position of
an already lowercased text. -/
def wonByAt (l : List Char) : Bool :=
  if listStarts "won by ".data l then
    let r := l.drop 7
    let ds := r.takeWhile Char.isDigit
    if ds.isEmpty then false
    else
      let r2 := r.drop ds.length
      listStarts " run".data r2 || listStarts " wicket".data r2
  else false

/-- Case-insensitive search for won by N run or wicket. -/
def wonByPattern (s : String) : Bool :=
  scanAny wonByAt (pyLower s).data

/-- The CRR label with colon, optional whitespace and a number, at one
position of an already lowercased text. -/
def crrColonAt (l : List Char) : Bool :=
  if listStarts "crr:".data l then
    match (l.drop 4).dropWhile pyWsChar with
    | d :: _ => d.isDigit
    | [] => false
  else false

/-- Case-insensitive search for the CRR-with-value pattern. -/
def crrColonPattern (s : String) : Bool :=
  scanAny crrColonAt (pyLower s).data

/-- Leading digit run and the remainder of the list. -/
def splitLeadDigits (l : List Char) : List Char × List Char :=
  (l.takeWhile Char.isDigit, l.dropWhile Char.isDigit)

/-- Non-overlapping left-to-right tokens of the number regex (digits,
optional dot, optional digits), as re.findall yields them; the fuel is
the length of the scanned text. -/
def findallNumbersGo : Nat → List Char → List String
  | 0, _ => []
  | _, [] => []
  | fuel + 1, c :: t =>
    if c.isDigit then
      let p := splitLeadDigits (c :: t)
      let tok_rest : List Char × List Char :=
        match p.2 with
        | '.' :: r2 =>
          let q := splitLeadDigits r2
          (p.1 ++ '.' :: q.1, q.2)
        | _ => p
      tok_rest.1.asString :: findallNumbersGo fuel tok_rest.2
    else findallNumbersGo fuel t

/-- All number tokens of a text, leftmost first. -/
def findallNumbers (s : String) : List String :=
  findallNumbersGo s.data.length s.data

/-- Python strip with the two parenthesis characters as the argument. -/
def stripParens (s : String) : String :=
  (((s.data.dropWhile (fun c => c == '(' || c == ')')).reverse.dropWhile
      (fun c => c == '(' || c == ')')).reverse).asString

/-- Removes, from the first match of the pattern whitespace-hyphen-
whitespace onward, the rest of the text: models the substitution the
title cleanup applies (the matched tail runs to the end; a title with an
embedded newline, which the dollar anchor would treat differently, does
not occur in the modelled inputs). -/
def dashTailMatch (l : List Char) : Bool :=
  match l with
  | c :: t =>
    if pyWsChar c then
      match t.dropWhile pyWsChar with
      | '-' :: d :: _ => pyWsChar d
      | _ => false
    else false
  | [] => false

/-- Scan of the title for the dash-tail pattern, dropping the tail. -/
def dashTailGo : List Char → List Char
  | [] => []
  | c :: t => if dashTailMatch (c :: t) then [] else c :: dashTailGo t

/-- The cleaned title: re.sub of the dash-tail pattern with the empty
string. -/
def reSubDashTail (s : String) : String :=
  (dashTailGo s.data).asString

/-! ## JSON values, modelling the payload json.loads decodes -/

/-- A decoded JSON value. Booleans are not modelled (see the file
comment). -/
inductive JVal where
  | null
  | num (q : ℚ)
  | str (s : String)
  | arr (items : List JVal)
  | obj (fields : List (String × JVal))

/-- Python subscription payload[key]: the value, or none where Python
raises the KeyError or TypeError the parser catches. -/
def jGetItem? (j : JVal) (k : String) : Option JVal :=
  match j with
  | .obj fields => List.lookup k fields
  | _ => none

/-- Python dict.get(key, default). The AttributeError Python raises when
the receiver is not a dict (an error the except clause does not list) is
modelled by yielding the default; no behaviour under study reaches that
path with a non-dict receiver. -/
def jGetD (j : JVal) (k : String) (d : JVal) : JVal :=
  (jGetItem? j k).getD d

/-- Python (key in payload) for the dict payloads the parser reads. -/
def jHasKey (j : JVal) (k : String) : Bool :=
  (jGetItem? j k).isSome

/-- Python truthiness of a decoded JSON value. -/
def jTruthy : JVal → Bool
  | .null => false
  | .num q => !(q == 0)
  | .str s => !(s == "")
  | .arr items => !items.isEmpty
  | .obj fields => !fields.isEmpty

/-- The string content of a value the code stores into a string field;
non-string values (which the Python code would store as they are) are
not modelled and map to the empty string. -/
def jStrVal : JVal → String
  | .str s => s
  | _ => ""

/-- The element list of a value the code iterates; iterating a non-list
(on which Python would either iterate keys or characters and then crash
on attribute access) is modelled as the empty iteration. -/
def asArr : JVal → List JVal
  | .arr items => items
  | _ => []

/-- Python int() applied to a decoded JSON value: truncation of a number
toward zero, or parse of a string of digits. none = the TypeError or
ValueError the parser catches. -/
def pyIntJ? : JVal → Option Int
  | .num q => some (q.num / (q.den : Int))
  | .str s => pyIntOfStr? s
  | _ => none

/-- Python float() applied to a decoded JSON value. none = the TypeError
or ValueError the parser catches. -/
def pyFloatJ? : JVal → Option ℚ
  | .num q => some q
  | .str s => pyFloatOfStr? s
  | _ => none

/-! ## The document tree and the BeautifulSoup operations used -/

mutual
/-- A node of the parsed document: an element with tag, attributes and
children, or a text run. -/
inductive Node where
  | text (s : String)
  | elem (tag : String) (attrs : List (String × String)) (children : NodeList)
/-- The children of an element. -/
inductive NodeList where
  | nil
  | cons (hd : Node) (tl : NodeList)
end

/-- Children from a plain list. -/
def nlOf : List Node → NodeList
  | [] => .nil
  | n :: t => .cons n (nlOf t)

mutual
/-- The text runs under a node, document order. -/
def nodeTexts : Node → List String
  | .text s => [s]
  | .elem _ _ cs => nlTexts cs
def nlTexts : NodeList → List String
  | .nil => []
  | .cons h t => nodeTexts h ++ nlTexts t
end

/-- get_text() with no stripping. -/
def getTextRaw (n : Node) : String :=
  String.join (nodeTexts n)

/-- get_text(strip=True): each text run stripped, then joined. -/
def getTextStrip (n : Node) : String :=
  String.join ((nodeTexts n).map pyStrip)

mutual
/-- All descendants of a node, document (pre)order, the node itself
excluded; text runs included. -/
def desc : Node → List Node
  | .text _ => []
  | .elem _ _ cs => descList cs
def descList : NodeList → List Node
  | .nil => []
  | .cons h t => h :: desc h ++ descList t
end

mutual
/-- The string property of a tag: the text of its only child, through
single-child tags; none when the node branches. -/
def nodeString : Node → Option String
  | .text s => some s
  | .elem _ _ cs => nlString cs
def nlString : NodeList → Option String
  | .cons c .nil => nodeString c
  | _ => none
end

/-- Attribute of an element. -/
def attr? : Node → String → Option String
  | .text _, _ => none
  | .elem _ attrs _, k => (attrs.find? (fun p => p.1 == k)).map (fun p => p.2)

/-- Attribute with a default: Python tag.get(key, default). -/
def attrD (n : Node) (k d : String) : String :=
  (attr? n k).getD d

/-- Is the node an element with the given tag. -/
def nodeIsTag (t : String) : Node → Bool
  | .text _ => false
  | .elem tag _ _ => tag == t

/-- The class-attribute filter written as a lambda over the class
string: applied to the full (space-joined) class attribute, false when
the attribute is absent, exactly as the lambdas guard (c and sub in c). -/
def classContains (sub : String) (n : Node) : Bool :=
  match attr? n "class" with
  | some c => strHasSub sub c
  | none => false

/-- The class filter given as a plain string: any class token equal to
the value. -/
def hasClassToken (tok : String) (n : Node) : Bool :=
  match attr? n "class" with
  | some c => ((pySplit c " ").filter (fun s => s != "")).contains tok
  | none => false

/-- find_all with a node predicate: matching descendants, document
order. -/
def findAllN (p : Node → Bool) (n : Node) : List Node :=
  (desc n).filter p

/-- find with a node predicate: the first matching descendant. -/
def findFirstN (p : Node → Bool) (n : Node) : Option Node :=
  (findAllN p n).head?

/-- find(string=pattern): the first text run matching the predicate. -/
def findString (p : String → Bool) (n : Node) : Option String :=
  ((desc n).filterMap (fun x =>
    match x with
    | .text s => if p s then some s else none
    | .elem _ _ _ => none)).head?

mutual
/-- The parent of the first descendant (document order) satisfying the
predicate: models find followed by the parent property. -/
def findParentC (p : Node → Bool) : Node → Option Node
  | .text _ => none
  | .elem t a cs => findParentIn p (.elem t a cs) cs
def findParentIn (p : Node → Bool) (parent : Node) : NodeList → Option Node
  | .nil => none
  | .cons c rest =>
    if p c then some parent
    else
      match findParentC p c with
      | some r => some r
      | none => findParentIn p parent rest
end

/-! ## Data model of the extracted values -/

/-- One entry of the live-matches listing. -/
structure MatchSummary where
  id : Nat
  teams : List String
  title : String
  status : String
  start_time : Option String
deriving DecidableEq, Repr

/-- One batting line. Integer statistics are Int (the structured path
can produce negatives through the raw payload); the HTML path only
produces naturals. -/
structure BattingFigure where
  name : String
  runs : Int
  balls : Int
  fours : Int
  sixes : Int
  sr : ℚ
deriving DecidableEq, Repr

/-- One bowling line. -/
structure BowlingFigure where
  name : String
  overs : ℚ
  maidens : Int
  runs : Int
  wickets : Int
  econ : ℚ
deriving DecidableEq, Repr

/-- The current-score line. The runs and wickets slots hold the raw
payload values in the structured path (the Python code stores whatever
dict.get returned there), so they are JSON values; the HTML path stores
parsed numbers. -/
structure ScoreLine where
  team : String
  runs : JVal
  wickets : JVal
  overs : ℚ

/-- The detailed match record both extraction strategies produce. -/
structure MatchDetail where
  title : Option String
  teams : List String
  status : String
  start_time : Option String
  current_score : Option ScoreLine
  run_rate : Option ℚ
  batting : List BattingFigure
  bowling : List BowlingFigure

/-! ## Live-list extraction (extract_live_matches of scraper.py) -/

/-- The id a candidate link yields (re.search on its href read with an
empty-string default). -/
def idOfLink (link : Node) : Option Nat :=
  findLiveScoreId (attrD link "href" "")

/-- The href filter of the link query: an anchor whose href matches the
live-score path pattern (an absent href reads as the empty string,
which the pattern never matches, exactly as the filter rejects a
missing attribute). -/
def isLiveScoreLink (n : Node) : Bool :=
  nodeIsTag "a" n && (idOfLink n).isSome

/-- All candidate links of the listing document. -/
def liveLinks (soup : Node) : List Node :=
  findAllN isLiveScoreLink soup

/-- The nonempty texts of the full team-name spans of a link. -/
def fullTeamSpanNames (link : Node) : List String :=
  ((findAllN (fun n => nodeIsTag "span" n && classContains "hidden wb:block" n) link).map
    getTextStrip).filter (fun s => s != "")

/-- The nonempty texts of the short team-code spans of a link. -/
def shortTeamSpanNames (link : Node) : List String :=
  ((findAllN (fun n => nodeIsTag "span" n && classContains "block wb:hidden" n) link).map
    getTextStrip).filter (fun s => s != "")

/-- The title of a candidate link: the title attribute stripped, else
the visible text. -/
def linkTitle (link : Node) : String :=
  let t := pyStrip (attrD link "title" "")
  if t == "" then getTextStrip link else t

/-- The team pair of a candidate link: full-name spans first, short
codes second, then the title split on the vs separator with each side
truncated at its first comma. -/
def linkTeams (link : Node) (title : String) : List String :=
  let t1 := fullTeamSpanNames link
  let t2 := if t1.isEmpty then shortTeamSpanNames link else t1
  if t2.isEmpty && strHasSub " vs " title then
    let clean := reSubDashTail title
    if strHasSub " vs " clean then
      let parts := pySplit clean " vs "
      if 2 ≤ parts.length then
        [pyStrip ((pySplit (parts.getD 0 "") ",").getD 0 ""),
         pyStrip ((pySplit (parts.getD 1 "") ",").getD 0 "")]
      else t2
    else t2
  else t2

/-- The coarse status of a candidate link. -/
def linkStatus (link : Node) (title : String) : String :=
  if (findFirstN (fun n => nodeIsTag "span" n && hasClassToken "cbPlusLiveTag" n) link).isSome then
    "Live"
  else
    match findFirstN (fun n => nodeIsTag "span" n && classContains "text-cbComplete" n) link with
    | some rs =>
      let rt := pyLower (getTextStrip rs)
      if ["won", "win", "complete"].any (fun w => strHasSub w rt) then "Completed"
      else getTextStrip rs
    | none =>
      let lt := pyLower title
      if ["won", "complete", "match drawn", "abandoned"].any (fun w => strHasSub w lt) then
        "Completed"
      else if ["opt to", "toss", "stumps", "lunch", "tea", "day", "innings break", "need",
               "require", "trail", "lead"].any (fun w => strHasSub w lt) then
        "Live"
      else "Upcoming"

/-- The scheduled start time of a candidate link, when present. -/
def linkStartTime (link : Node) : Option String :=
  match findFirstN (fun n => nodeIsTag "span" n && hasClassToken "sch-date" n) link with
  | some te => some (getTextStrip te)
  | none =>
    match findString timePatternListing link with
    | some s => some (pyStrip s)
    | none => none

/-- The loop body of extract_live_matches for one candidate link; none
mirrors the continue taken when the href search fails (unreachable for
links the href filter admitted, kept for fidelity). -/
def linkEntry? (link : Node) : Option MatchSummary :=
  match idOfLink link with
  | none => none
  | some mid =>
    let title := linkTitle link
    some { id := mid, teams := linkTeams link title, title := title,
           status := linkStatus link title, start_time := linkStartTime link }

/-- The pre-deduplication list of entries, one per candidate link. -/
def entriesOf (soup : Node) : List MatchSummary :=
  (liveLinks soup).filterMap linkEntry?

/-- The deduplication loop: an insertion-ordered dictionary keyed on id,
written to only when the key is absent, then its values. -/
def uniqueLoop (acc : List MatchSummary) : List MatchSummary → List MatchSummary
  | [] => acc
  | m :: t =>
    if acc.any (fun x => x.id == m.id) then uniqueLoop acc t
    else uniqueLoop (acc ++ [m]) t

/-- extract_live_matches of scraper.py. -/
def extract_live_matches (soup : Node) : List MatchSummary :=
  uniqueLoop [] (entriesOf soup)

/-! ## Match-page status extraction and its validity filter -/

/-- The validity filter for free-text status candidates, translated
verbatim from is_valid_status. -/
def is_valid_status (text : String) : Bool :=
  if text == "" || text.length > 60 then false
  else
    let bad := ["short ball", "full toss", "driven", "pulled", "cut", "swept",
                "over mid-wicket", "long on", "long off", "covers", "point",
                "Schedule", "Archives", "Rankings", "Videos", "More"]
    let lower := pyLower text
    if bad.any (fun p => strHasSub p lower) then false
    else
      let keywords := ["won", "live", "stumps", "innings", "rain", "abandoned",
                       "opt", "target", "need", "required", "break"]
      keywords.any (fun k => strHasSub k lower)

/-- The found-and-valid step each status stage applies. -/
def tryValidText (n? : Option Node) : Option String :=
  match n? with
  | some n =>
    let c := getTextStrip n
    if is_valid_status c then some c else none
  | none => none

/-- A div whose string property matches the given text predicate. -/
def divStringMatches (p : String → Bool) (n : Node) : Bool :=
  nodeIsTag "div" n &&
    (match nodeString n with
     | some s => p s
     | none => false)

/-- The keyword loop of the status extractor: first keyword whose div
passes the validity filter. -/
def statusKwStage : List String → Node → Option String
  | [], _ => none
  | kw :: rest, soup =>
    match tryValidText (findFirstN (divStringMatches (fun s => strHasSub kw (pyLower s))) soup) with
    | some c => some c
    | none => statusKwStage rest soup

/-- The header-region scan: first div or span text passing the validity
filter. -/
def headerScan : List Node → Option String
  | [] => none
  | e :: rest =>
    let t := getTextStrip e
    if is_valid_status t then some t else headerScan rest

/-- extract_match_status_from_match_page of scraper.py. -/
def extract_match_status_from_match_page (soup : Node) : Option String :=
  if (findFirstN (fun n => nodeIsTag "span" n && classContains "cb-plus-live-tag" n) soup).isSome then
    some "Live"
  else
    match tryValidText (findFirstN (fun n => nodeIsTag "div" n && classContains "cb-text-" n) soup) with
    | some c => some c
    | none =>
      match tryValidText (findFirstN (divStringMatches (fun s =>
          strHasSub "opt to bat" (pyLower s) || strHasSub "opt to field" (pyLower s))) soup) with
      | some c => some c
      | none =>
        match tryValidText (findFirstN (divStringMatches wonByPattern) soup) with
        | some c => some c
        | none =>
          match statusKwStage ["innings break", "stumps", "rain", "abandoned", "lunch", "tea"] soup with
          | some c => some c
          | none =>
            if (findFirstN (fun n => nodeIsTag "div" n && classContains "cb-text-preview" n) soup).isSome then
              some "Preview"
            else
              match findFirstN (fun n => nodeIsTag "div" n && classContains "cb-col-100" n &&
                  classContains "cb-miniscroll" n) soup with
              | some header =>
                headerScan (findAllN (fun n => nodeIsTag "div" n || nodeIsTag "span" n) header)
              | none => none

/-! ## Current score, run rate and start time (HTML heuristics) -/

/-- The anchored score regex: letters, optional whitespace, runs, a
slash or hyphen, wickets, optional whitespace, the overs number in
parentheses.  Yields team, runs, wickets, overs. -/
def parseScoreText (s : String) : Option (String × Nat × Nat × ℚ) :=
  let l := s.data
  let letters := l.takeWhile Char.isAlpha
  if letters.isEmpty then none
  else
    let r1 := (l.drop letters.length).dropWhile pyWsChar
    let runs := r1.takeWhile Char.isDigit
    if runs.isEmpty then none
    else
      match r1.drop runs.length with
      | sep :: r2 =>
        if sep == '/' || sep == '-' then
          let wk := r2.takeWhile Char.isDigit
          if wk.isEmpty then none
          else
            match (r2.drop wk.length).dropWhile pyWsChar with
            | '(' :: r4 =>
              let od := r4.takeWhile Char.isDigit
              if od.isEmpty then none
              else
                let r5 := r4.drop od.length
                let tok_rest : List Char × List Char :=
                  match r5 with
                  | '.' :: r5b =>
                    let fd := r5b.takeWhile Char.isDigit
                    (od ++ '.' :: fd, r5b.drop fd.length)
                  | _ => (od, r5)
                match tok_rest.2 with
                | ')' :: _ =>
                  some (letters.asString, natOfDigits runs, natOfDigits wk,
                        qOfNumToken tok_rest.1.asString)
                | _ => none
            | _ => none
        else none
      | [] => none

/-- extract_current_score of scraper.py: the cb-score container parsed
with the score regex, else the bold flex block with its team div and two
value spans.  In the second branch the overs conversion is guarded the
usual way; the ValueError a guard-passing multi-dot text would raise
(which no handler catches there) is modelled as the value 0. -/
def extract_current_score (soup : Node) : Option ScoreLine :=
  let fromScoreDiv :=
    match findFirstN (fun n => nodeIsTag "div" n && classContains "cb-score" n) soup with
    | some el =>
      match parseScoreText (getTextStrip el) with
      | some (team, runs, wk, ov) => some (⟨team, .num runs, .num wk, ov⟩ : ScoreLine)
      | none => none
    | none => none
  match fromScoreDiv with
  | some cs => some cs
  | none =>
    match findFirstN (fun n => nodeIsTag "div" n && classContains "font-bold" n &&
        classContains "text-xl" n && classContains "flex" n) soup with
    | some blk =>
      let team :=
        match findFirstN (fun n => nodeIsTag "div" n && hasClassToken "mr-2" n) blk with
        | some td0 => getTextStrip td0
        | none => ""
      let spans := findAllN (fun n => nodeIsTag "span" n && hasClassToken "mr-2" n) blk
      if 2 ≤ spans.length then
        let runs_wickets := getTextStrip (spans.getD 0 (.text ""))
        let overs := stripParens (getTextStrip (spans.getD 1 (.text "")))
        let rw : Int × Int :=
          if strHasSub "-" runs_wickets then
            let parts := pySplit runs_wickets "-"
            ((if pyStrIsdigit (parts.getD 0 "") then (natOfDigits (parts.getD 0 "").data : Int) else 0),
             (if 1 < parts.length && pyStrIsdigit (parts.getD 1 "") then
                (natOfDigits (parts.getD 1 "").data : Int) else 0))
          else if pyStrIsdigit runs_wickets then ((natOfDigits runs_wickets.data : Int), 0)
          else (0, 0)
        let ov := if floatGuard overs then qOfNumToken overs else 0
        some ⟨team, .num rw.1, .num rw.2, ov⟩
      else none
    | none => none

/-- A span whose string mentions CRR, case-insensitively. -/
def crrSpanPred (n : Node) : Bool :=
  nodeIsTag "span" n &&
    (match nodeString n with
     | some s => strHasSub "crr" (pyLower s)
     | none => false)

/-- A span whose string matches the CRR-with-value regex. -/
def crrColonSpanPred (n : Node) : Bool :=
  nodeIsTag "span" n &&
    (match nodeString n with
     | some s => crrColonPattern s
     | none => false)

/-- extract_run_rate of scraper.py: the first number near a CRR span
(through its parent), else the first number of a CRR-with-value span. -/
def extract_run_rate (soup : Node) : Option ℚ :=
  let second :=
    match findFirstN crrColonSpanPred soup with
    | some sp => ((findallNumbers (getTextRaw sp)).head?).map qOfNumToken
    | none => none
  match findParentC crrSpanPred soup with
  | some par =>
    match (findallNumbers (getTextRaw par)).head? with
    | some tok => some (qOfNumToken tok)
    | none => second
  | none => second

/-- A span whose string carries the date-and-time label. -/
def dateTimeSpanPred (n : Node) : Bool :=
  nodeIsTag "span" n &&
    (match nodeString n with
     | some s => strHasSub "date & time:" (pyLower s)
     | none => false)

/-- extract_start_time_from_match_page of scraper.py. -/
def extract_start_time_from_match_page (soup : Node) : Option String :=
  match findParentC dateTimeSpanPred soup with
  | some par => some (pyStrip (pyReplace (getTextStrip par) "Date & Time:" ""))
  | none =>
    match findString timePatternClock soup with
    | some s => some (pyStrip s)
    | none => none

/-! ## Batting and bowling extraction (HTML heuristics) -/

/-- The player-profile link filter of a statistics row. -/
def profileLinkPred (n : Node) : Bool :=
  nodeIsTag "a" n &&
    (match attr? n "href" with
     | some h => strHasSub "/profiles/" h
     | none => false)

/-- The td and th cells of a row, document order. -/
def rowCells (row : Node) : List Node :=
  findAllN (fun n => nodeIsTag "td" n || nodeIsTag "th" n) row

/-- The profile link of a row, when present. -/
def rowProfileLink (row : Node) : Option Node :=
  findFirstN profileLinkPred row

/-- Stripped text of the i-th cell of a row. -/
def cellText (row : Node) (i : Nat) : String :=
  getTextStrip ((rowCells row).getD i (.text ""))

/-- The text fed to the trailing float conversion of a table row: the
seventh cell when it exists, else the literal zero the code substitutes. -/
def sixthCellText (row : Node) : String :=
  if 6 < (rowCells row).length then cellText row 6 else "0"

/-- The batter name with the marker characters removed. -/
def cleanBatName (lnk : Node) : String :=
  pyReplace (pyReplace (getTextStrip lnk) " *" "") "†" ""

/-- One table row of the batting table: the figure appended, or none
when the row is skipped (too few cells, no profile link, or the
ValueError of the trailing float conversion, caught by the except that
continues to the next row). -/
def battingRow (row : Node) : Option BattingFigure :=
  if 7 ≤ (rowCells row).length then
    match rowProfileLink row with
    | some lnk =>
      match coerceFloat? (sixthCellText row) with
      | some sr =>
        some { name := cleanBatName lnk, runs := coerceInt (cellText row 2),
               balls := coerceInt (cellText row 3), fours := coerceInt (cellText row 4),
               sixes := coerceInt (cellText row 5), sr := sr }
      | none => none
    | none => none
  else none

/-- Does the first row of the table name the Batter column. -/
def headerHasBatter (table : Node) : Bool :=
  match (findAllN (nodeIsTag "tr") table).head? with
  | some header =>
    (findAllN (fun n => nodeIsTag "th" n || nodeIsTag "td" n) header).any
      (fun th => strHasSub "Batter" (getTextRaw th))
  | none => false

/-- The rows of a table after its header row. -/
def tableTrsTail (table : Node) : List Node :=
  (findAllN (nodeIsTag "tr") table).tail

/-- The batting figures one table contributes. -/
def tableBatting (table : Node) : List BattingFigure :=
  if headerHasBatter table then (tableTrsTail table).filterMap battingRow else []

/-- The table loop of extract_batting: the first table whose rows
produced at least one figure. -/
def battingFromTables : List Node → List BattingFigure
  | [] => []
  | t :: ts =>
    let b := tableBatting t
    if b.isEmpty then battingFromTables ts else b

/-- The grid rows of the div-based batting fallback. -/
def batGridRows (soup : Node) : List Node :=
  findAllN (fun n => nodeIsTag "div" n && classContains "scorecard-bat-grid" n) soup

/-- The statistic divs of one grid row. -/
def gridStatDivs (row : Node) : List Node :=
  findAllN (fun n => nodeIsTag "div" n && classContains "flex justify-center items-center" n) row

/-- Stripped text of the i-th statistic div of a grid row. -/
def gridStatText (row : Node) (i : Nat) : String :=
  getTextStrip ((gridStatDivs row).getD i (.text ""))

/-- One grid row of the batting fallback. -/
def battingGridRow (row : Node) : Option BattingFigure :=
  match rowProfileLink row with
  | none => none
  | some lnk =>
    if 5 ≤ (gridStatDivs row).length then
      match coerceFloat? (gridStatText row 4) with
      | some sr =>
        some { name := cleanBatName lnk, runs := coerceInt (gridStatText row 0),
               balls := coerceInt (gridStatText row 1), fours := coerceInt (gridStatText row 2),
               sixes := coerceInt (gridStatText row 3), sr := sr }
      | none => none
    else none

/-- extract_batting of scraper.py. -/
def extract_batting (soup : Node) : List BattingFigure :=
  let fromTables := battingFromTables (findAllN (nodeIsTag "table") soup)
  if fromTables.isEmpty then (batGridRows soup).filterMap battingGridRow else fromTables

/-- One table row of the bowling table; the overs and economy texts both
pass through the guarded float conversion, either ValueError skips the
row. -/
def bowlingRow (row : Node) : Option BowlingFigure :=
  if 7 ≤ (rowCells row).length then
    match rowProfileLink row with
    | some lnk =>
      match coerceFloat? (cellText row 2) with
      | some overs =>
        match coerceFloat? (sixthCellText row) with
        | some econ =>
          some { name := getTextStrip lnk, overs := overs, maidens := coerceInt (cellText row 3),
                 runs := coerceInt (cellText row 4), wickets := coerceInt (cellText row 5),
                 econ := econ }
        | none => none
      | none => none
    | none => none
  else none

/-- Does the first row of the table name the Bowler column. -/
def headerHasBowler (table : Node) : Bool :=
  match (findAllN (nodeIsTag "tr") table).head? with
  | some header =>
    (findAllN (fun n => nodeIsTag "th" n || nodeIsTag "td" n) header).any
      (fun th => strHasSub "Bowler" (getTextRaw th))
  | none => false

/-- The bowling figures one table contributes. -/
def tableBowling (table : Node) : List BowlingFigure :=
  if headerHasBowler table then (tableTrsTail table).filterMap bowlingRow else []

/-- The table loop of extract_bowling. -/
def bowlingFromTables : List Node → List BowlingFigure
  | [] => []
  | t :: ts =>
    let b := tableBowling t
    if b.isEmpty then bowlingFromTables ts else b

/-- The grid rows of the div-based bowling fallback. -/
def bowlGridRows (soup : Node) : List Node :=
  findAllN (fun n => nodeIsTag "div" n && classContains "scorecard-bowl-grid" n) soup

/-- One grid row of the bowling fallback. -/
def bowlingGridRow (row : Node) : Option BowlingFigure :=
  match rowProfileLink row with
  | none => none
  | some lnk =>
    if 5 ≤ (gridStatDivs row).length then
      match coerceFloat? (gridStatText row 0) with
      | some overs =>
        match coerceFloat? (gridStatText row 4) with
        | some econ =>
          some { name := getTextStrip lnk, overs := overs,
                 maidens := coerceInt (gridStatText row 1), runs := coerceInt (gridStatText row 2),
                 wickets := coerceInt (gridStatText row 3), econ := econ }
        | none => none
      | none => none
    else none

/-- extract_bowling of scraper.py. -/
def extract_bowling (soup : Node) : List BowlingFigure :=
  let fromTables := bowlingFromTables (findAllN (nodeIsTag "table") soup)
  if fromTables.isEmpty then (bowlGridRows soup).filterMap bowlingGridRow else fromTables

/-! ## The structured-data path (parse_scorecard_from_json) -/

/-- Two-digit zero padding of a nonnegative value. -/
def pad2 (n : Int) : String :=
  if n < 10 then "0" ++ toString n else toString n

/-- Weekday abbreviations, Monday first. -/
def dayNames : List String :=
  ["Mon", "Tue", "Wed", "Thu", "Fri", "Sat", "Sun"]

/-- Month abbreviations. -/
def monthNames : List String :=
  ["Jan", "Feb", "Mar", "Apr", "May", "Jun", "Jul", "Aug", "Sep", "Oct", "Nov", "Dec"]

/-- Civil year, month and day from days since the epoch. -/
def civilFromDays (z0 : Int) : Int × Int × Int :=
  let z := z0 + 719468
  let era := Int.fdiv z 146097
  let doe := z - era * 146097
  let yoe := Int.fdiv (doe - Int.fdiv doe 1460 + Int.fdiv doe 36524 - Int.fdiv doe 146096) 365
  let y := yoe + era * 400
  let doy := doe - (365 * yoe + Int.fdiv yoe 4 - Int.fdiv yoe 100)
  let mp := Int.fdiv (5 * doy + 2) 153
  let d := doy - Int.fdiv (153 * mp + 2) 5 + 1
  let m := mp + (if mp < 10 then 3 else -9)
  (y + (if m ≤ 2 then 1 else 0), m, d)

/-- The start-time formatting of the structured path: the millisecond
timestamp divided by 1000, rendered with the weekday-month-day-clock
format and the space-zero cleanup.  Python renders in the local
timezone of the serving host; the model renders in UTC, a fixed choice
of that environment parameter. -/
def formatStartTs (msTs : Int) : String :=
  let secs := Int.fdiv msTs 1000
  let days := Int.fdiv secs 86400
  let sod := secs - 86400 * days
  let hh := Int.fdiv sod 3600
  let mm := Int.fdiv (sod - 3600 * hh) 60
  let md := civilFromDays days
  let wd := (Int.emod (days + 3) 7).toNat
  let h0 := Int.emod hh 12
  let h12 := if h0 == 0 then 12 else h0
  let ap := if hh < 12 then "AM" else "PM"
  pyReplace ((dayNames.getD wd "") ++ ", " ++ (monthNames.getD (md.2.1 - 1).toNat "") ++ " " ++
    pad2 md.2.2 ++ ", " ++ pad2 h12 ++ ":" ++ pad2 mm ++ " " ++ ap) " 0" " "

/-- The start-time block of the parser: present only when the nested
keys exist and the timestamp is truthy and converts; the bare except
around the conversion turns any failure into an absent start time. -/
def startTimeFromHeader (header : JVal) : Option String :=
  if jHasKey header "matchDetails" then
    let md := jGetD header "matchDetails" (.obj [])
    if jHasKey md "match" then
      let mi := jGetD md "match" (.obj [])
      if jHasKey mi "startDate" then
        let ts := jGetD mi "startDate" .null
        if jTruthy ts then
          match pyIntJ? ts with
          | some n => some (formatStartTs n)
          | none => none
        else none
      else none
    else none
  else none

/-- One batsman entry of the structured payload; none = the ValueError
or TypeError of a numeric conversion, which fails the whole parse. -/
def jBat? (b : JVal) : Option BattingFigure :=
  match pyIntJ? (jGetD b "runs" (.num 0)), pyIntJ? (jGetD b "balls" (.num 0)),
        pyIntJ? (jGetD b "fours" (.num 0)), pyIntJ? (jGetD b "sixes" (.num 0)),
        pyFloatJ? (jGetD b "strikeRate" (.num 0)) with
  | some runs, some balls, some fours, some sixes, some sr =>
    some { name := jStrVal (jGetD b "batName" (.str "")), runs := runs, balls := balls,
           fours := fours, sixes := sixes, sr := sr }
  | _, _, _, _, _ => none

/-- One bowler entry of the structured payload. -/
def jBowl? (b : JVal) : Option BowlingFigure :=
  match pyFloatJ? (jGetD b "overs" (.num 0)), pyIntJ? (jGetD b "maidens" (.num 0)),
        pyIntJ? (jGetD b "runs" (.num 0)), pyIntJ? (jGetD b "wickets" (.num 0)),
        pyFloatJ? (jGetD b "economy" (.num 0)) with
  | some overs, some maidens, some runs, some wickets, some econ =>
    some { name := jStrVal (jGetD b "bowlName" (.str "")), overs := overs, maidens := maidens,
           runs := runs, wickets := wickets, econ := econ }
  | _, _, _, _, _ => none

/-- The batting and bowling lists one innings contributes. -/
def inningsOne (inn : JVal) : Option (List BattingFigure × List BowlingFigure) :=
  match (asArr (jGetD (jGetD inn "batTeamDetails" (.obj [])) "batsmanData" (.arr []))).mapM jBat?,
        (asArr (jGetD (jGetD inn "bowlTeamDetails" (.obj [])) "bowlerData" (.arr []))).mapM jBowl? with
  | some bs, some ws => some (bs, ws)
  | _, _ => none

/-- The innings loop: batting and bowling flattened across all innings,
in order. -/
def inningsAll : List JVal → Option (List BattingFigure × List BowlingFigure)
  | [] => some ([], [])
  | inn :: rest =>
    match inningsOne inn, inningsAll rest with
    | some (b1, w1), some (b2, w2) => some (b1 ++ b2, w1 ++ w2)
    | _, _ => none

/-- The score_details value of a first innings. -/
def scoreDetailsOf (fi : JVal) : JVal :=
  jGetD (jGetD fi "batTeamDetails" (.obj [])) "scoreDetails" (.obj [])

/-- The current-score dictionary the block builds from the first
innings. -/
def csOf (fi btd : JVal) (overs : ℚ) : ScoreLine :=
  { team := jStrVal (jGetD btd "teamName" (.str "")),
    runs := jGetD (scoreDetailsOf fi) "runs" (.num 0),
    wickets := jGetD (scoreDetailsOf fi) "wickets" (.num 0), overs := overs }

/-- The current-score and run-rate block of the parser, from the first
innings of the scorecard list.  The outer none is the TypeError a
truthy non-list scorecard value would raise at len(), which fails the
whole parse, and likewise a type failure inside the block; some (cs, rr)
carries the two values the block assigns. -/
def scoreBlock (mtch : JVal) : Option (Option ScoreLine × Option ℚ) :=
  match jGetD mtch "scorecard" .null with
  | .arr [] => some (none, none)
  | .arr (fi :: _) =>
    if jTruthy (scoreDetailsOf fi) then
      match pyFloatJ? (jGetD (scoreDetailsOf fi) "overs" (.num 0)) with
      | none => none
      | some overs =>
        match jGetItem? fi "batTeamDetails" with
        | none => none
        | some btd =>
          if 0 < overs then
            match jGetD (scoreDetailsOf fi) "runs" (.num 0) with
            | .num r => some (some (csOf fi btd overs), some (round2 (r / overs)))
            | _ => none
          else some (some (csOf fi btd overs), none)
    else some (none, none)
  | other => if jTruthy other then none else some (none, none)

/-- The navigation prefix of the parser: props, pageProps, the
matchScorecard membership test and subscription, and the matchHeader
subscription; none = the KeyError or TypeError the except catches, or
the early return on a payload without a scorecard. -/
def parseCtx (j : JVal) : Option (JVal × JVal) :=
  match jGetItem? j "props" with
  | none => none
  | some p1 =>
    match jGetItem? p1 "pageProps" with
    | none => none
    | some props =>
      if jHasKey props "matchScorecard" = false then none
      else
        match jGetItem? props "matchScorecard" with
        | none => none
        | some mtch =>
          match jGetItem? mtch "matchHeader" with
          | none => none
          | some header => some (mtch, header)

/-- parse_scorecard_from_json of scraper.py. -/
def parse_scorecard_from_json (j : JVal) : Option MatchDetail :=
  match parseCtx j with
  | none => none
  | some ctx =>
    match inningsAll (asArr (jGetD ctx.1 "scorecard" (.arr []))) with
    | none => none
    | some lists =>
      match scoreBlock ctx.1 with
      | none => none
      | some csrr =>
        some { title := some (jStrVal (jGetD ctx.2 "matchDescription" (.str ""))),
               teams := [jStrVal (jGetD (jGetD ctx.2 "team1" (.obj [])) "name" (.str "")),
                         jStrVal (jGetD (jGetD ctx.2 "team2" (.obj [])) "name" (.str ""))],
               status := jStrVal (jGetD ctx.2 "status" (.str "")),
               start_time := startTimeFromHeader ctx.2,
               current_score := csrr.1, run_rate := csrr.2,
               batting := lists.1, bowling := lists.2 }

/-! ## Match-detail extraction (extract_match_data) -/

/-- A match page as fetched: the document tree, plus the decoded
payload of the data-island script tag.  The script lookup and the
json.loads library call are abstracted into the nextData field: none
when the tag is absent, carries no string, or its string is not valid
JSON. -/
structure MatchDoc where
  nextData : Option JVal
  soup : Node

/-- extract_json_data of scraper.py over the document model (see
MatchDoc). -/
def extract_json_data (md : MatchDoc) : Option JVal :=
  md.nextData

/-- Python (x or y) on a string and a default. -/
def pyOrStr (s? : Option String) (d : String) : String :=
  match s? with
  | some s => if s == "" then d else s
  | none => d

/-- The HTML-heuristic fallback branch of extract_match_data. -/
def extract_match_data_html (soup : Node) : MatchDetail :=
  let title :=
    match findFirstN (nodeIsTag "h1") soup with
    | none => none
    | some h =>
      let t := getTextStrip h
      if t == "" then some t
      else some (pyStrip (pyReplace (pyReplace t ", Commentary" "") " - Scorecard" ""))
  let teams :=
    match title with
    | some t =>
      if strHasSub " vs " t then
        let parts := pySplit t " vs "
        if 2 ≤ parts.length then
          [pyStrip ((pySplit (parts.getD 0 "") ",").getD 0 ""),
           pyStrip ((pySplit (parts.getD 1 "") ",").getD 0 "")]
        else []
      else []
    | none => []
  { title := title, teams := teams,
    status := pyOrStr (extract_match_status_from_match_page soup) "Match Stats will Update Soon...",
    start_time := extract_start_time_from_match_page soup,
    current_score := extract_current_score soup,
    run_rate := extract_run_rate soup,
    batting := extract_batting soup,
    bowling := extract_bowling soup }

/-- extract_match_data of scraper.py: the structured path first, its
result returned whenever the decoded payload is truthy and the parser
yields a record; the HTML fallback otherwise. -/
def extract_match_data (md : MatchDoc) : MatchDetail :=
  match extract_json_data md with
  | some jd =>
    if jTruthy jd then
      match parse_scorecard_from_json jd with
      | some d => d
      | none => extract_match_data_html md.soup
    else extract_match_data_html md.soup
  | none => extract_match_data_html md.soup

/-! ## The legacy failure response (utils.py) -/

/-- json_error_response of utils.py: the fixed fallback object, paired
with the 200 status the jsonify call returns by default. -/
def json_error_response : List (String × String) × Nat :=
  ([("title", "Data Not Found"), ("update", "Data Not Found"),
    ("livescore", "Data Not Found"), ("runrate", "Data Not Found"),
    ("batterone", "Data Not Found"), ("batsmanonerun", "Data Not Found"),
    ("batsmanoneball", "Data Not Found"), ("batsmanonesr", "Data Not Found"),
    ("battertwo", "Data Not Found"), ("batsmantworun", "Data Not Found"),
    ("batsmantwoball", "Data Not Found"), ("batsmantwosr", "Data Not Found"),
    ("bowlerone", "Data Not Found"), ("bowleroneover", "Data Not Found"),
    ("bowleronerun", "Data Not Found"), ("bowleronewickers", "Data Not Found"),
    ("bowleroneeconomy", "Data Not Found"), ("bowlertwo", "Data Not Found"),
    ("bowlertwoover", "Data Not Found"), ("bowlertworun", "Data Not Found"),
    ("bowlertwowickers", "Data Not Found"), ("bowlertwoeconomy", "Data Not Found")], 200)

/-! ## Concrete documents and payloads used by the theorems -/

/-- A listing link with id 5 and title attribute A. -/
def linkA : Node :=
  .elem "a" [("href", "/live-cricket-scores/5"), ("title", "A")] .nil

/-- A second listing link with the same id 5 and title attribute B. -/
def linkB : Node :=
  .elem "a" [("href", "/live-cricket-scores/5"), ("title", "B")] .nil

/-- A listing document in which two candidate links share one id. -/
def docSameId : Node :=
  .elem "html" [] (nlOf [linkA, linkB])

/-- A candidate link with no title attribute and no visible text. -/
def linkNoTitle : Node :=
  .elem "a" [("href", "/live-cricket-scores/7")] .nil

/-- A listing document whose only candidate link derives an empty
title. -/
def docEmptyTitle : Node :=
  .elem "html" [] (nlOf [linkNoTitle])

/-- A listing document whose candidate link holds exactly one full
team-name span. -/
def docOneSpan : Node :=
  .elem "html" [] (nlOf [.elem "a" [("href", "/live-cricket-scores/9")]
    (nlOf [.elem "span" [("class", "hidden wb:block")] (nlOf [.text "India"])])])

/-- A listing document whose candidate link carries no team spans and a
title with the vs separator. -/
def docTitleTeams : Node :=
  .elem "html" [] (nlOf [.elem "a" [("href", "/live-cricket-scores/11"), ("title", "A vs B")] .nil])

/-- The entry the listing extractor derives from docTitleTeams. -/
def entryTitleTeams : MatchSummary :=
  { id := 11, teams := ["A", "B"], title := "A vs B", status := "Upcoming", start_time := none }

/-- A table cell with the given text. -/
def tdOf (s : String) : Node :=
  .elem "td" [] (nlOf [.text s])

/-- A player-profile link with visible name AB. -/
def profA : Node :=
  .elem "a" [("href", "/profiles/1")] (nlOf [.text "AB"])

/-- The name cell holding the profile link. -/
def tdName : Node :=
  .elem "td" [] (nlOf [profA])

/-- The header row naming the Batter column. -/
def headerBat : Node :=
  .elem "tr" [] (nlOf [.elem "th" [] (nlOf [.text "Batter"])])

/-- A batting row whose strike-rate cell reads 1.2.3: the digit guard
passes, float() raises, the row is skipped. -/
def rowMultiDot : Node :=
  .elem "tr" [] (nlOf [tdName, tdOf "c1", tdOf "1", tdOf "2", tdOf "3", tdOf "4", tdOf "1.2.3"])

/-- A scorecard document whose only batting row is rowMultiDot. -/
def docMultiDot : Node :=
  .elem "html" [] (nlOf [.elem "table" [] (nlOf [headerBat, rowMultiDot])])

/-- A batting row with plainly non-numeric runs and strike-rate cells:
both coerce to zero and the row is kept. -/
def rowAbc : Node :=
  .elem "tr" [] (nlOf [tdName, tdOf "dnb", tdOf "x", tdOf "2", tdOf "3", tdOf "4", tdOf "abc"])

/-- A first batting row for the player AB. -/
def rowDup1 : Node :=
  .elem "tr" [] (nlOf [tdName, tdOf "", tdOf "10", tdOf "8", tdOf "1", tdOf "0", tdOf "125.0"])

/-- A second batting row for the same player AB. -/
def rowDup2 : Node :=
  .elem "tr" [] (nlOf [tdName, tdOf "", tdOf "20", tdOf "12", tdOf "2", tdOf "1", tdOf "166.0"])

/-- A scorecard document whose batting table lists the same player name
on two rows. -/
def docDupNames : Node :=
  .elem "html" [] (nlOf [.elem "table" [] (nlOf [headerBat, rowDup1, rowDup2])])

/-- A structured payload whose scorecard is recognized but whose header
has no matchDescription: the parsed title is the empty string. -/
def jEmptyTitle : JVal :=
  .obj [("props", .obj [("pageProps", .obj [("matchScorecard",
    .obj [("matchHeader", .obj []), ("scorecard", .arr [])])])])]

/-- A match page whose heading the HTML fallback would read. -/
def soupH1 : Node :=
  .elem "html" [] (nlOf [.elem "h1" [] (nlOf [.text "India vs Australia"])])

/-- A fetched match page carrying both the empty-title payload and the
heading. -/
def mdEmptyTitle : MatchDoc :=
  { nextData := some jEmptyTitle, soup := soupH1 }

/-- A structured payload with a usable title. -/
def jTitled : JVal :=
  .obj [("props", .obj [("pageProps", .obj [("matchScorecard",
    .obj [("matchHeader", .obj [("matchDescription", .str "3rd T20I")]),
          ("scorecard", .arr [])])])])]

/-- A fetched match page carrying the titled payload. -/
def mdTitled : MatchDoc :=
  { nextData := some jTitled, soup := .elem "html" [] .nil }

/-- The record the structured path yields for jTitled. -/
def dTitled : MatchDetail :=
  { title := some "3rd T20I", teams := ["", ""], status := "", start_time := none,
    current_score := none, run_rate := none, batting := [], bowling := [] }

/-- A structured payload whose first innings has score details with 85
runs off 10 overs. -/
def jScore : JVal :=
  .obj [("props", .obj [("pageProps", .obj [("matchScorecard",
    .obj [("matchHeader", .obj [("matchDescription", .str "Final"), ("status", .str "Live")]),
          ("scorecard", .arr [.obj [("batTeamDetails",
            .obj [("teamName", .str "IND"),
                  ("scoreDetails", .obj [("runs", .num 85), ("wickets", .num 3), ("overs", .num 10)]),
                  ("batsmanData", .arr [])])]])])])])]

/-- The score line of jScore. -/
def csScore : ScoreLine :=
  { team := "IND", runs := .num 85, wickets := .num 3, overs := 10 }

/-- The record the structured path yields for jScore: 85 runs off 10
overs give the run rate round2 (85 / 10), that is 8.5. -/
def dScore : MatchDetail :=
  { title := some "Final", teams := ["", ""], status := "Live", start_time := none,
    current_score := some csScore, run_rate := some (round2 (85 / 10)),
    batting := [], bowling := [] }

/-- A default figure for reading an optional result. -/
def fallbackFig : BattingFigure :=
  { name := "", runs := 0, balls := 0, fours := 0, sixes := 0, sr := 0 }

/-! ## Helper lemmas -/

/-- The deduplication loop only appends to its accumulator, and every
appended entry comes from the input list. -/
theorem uniqueLoop_eq_append (l : List MatchSummary) :
    ∀ acc : List MatchSummary,
      ∃ rest, uniqueLoop acc l = acc ++ rest ∧ ∀ x ∈ rest, x ∈ l := by
  induction l with
  | nil => intro acc; exact ⟨[], by simp [uniqueLoop], by simp⟩
  | cons m t ih =>
    intro acc
    by_cases h : (acc.any fun x => x.id == m.id) = true
    · obtain ⟨rest, hr, hmem⟩ := ih acc
      refine ⟨rest, ?_, ?_⟩
      · simp only [uniqueLoop, if_pos h]; exact hr
      · intro x hx; exact List.mem_cons_of_mem m (hmem x hx)
    · obtain ⟨rest, hr, hmem⟩ := ih (acc ++ [m])
      refine ⟨m :: rest, ?_, ?_⟩
      · simp only [uniqueLoop, if_neg h]; rw [hr]; simp
      · intro x hx
        rcases List.mem_cons.mp hx with rfl | hx2
        · exact List.mem_cons_self x t
        · exact List.mem_cons_of_mem m (hmem x hx2)

/-- The deduplication loop preserves distinctness of the accumulated
ids. -/
theorem uniqueLoop_ids_nodup (l : List MatchSummary) :
    ∀ acc : List MatchSummary, (acc.map (fun x => x.id)).Nodup →
      ((uniqueLoop acc l).map (fun x => x.id)).Nodup := by
  induction l with
  | nil => intro acc h; simpa [uniqueLoop] using h
  | cons m t ih =>
    intro acc h
    by_cases hc : (acc.any fun x => x.id == m.id) = true
    · simp only [uniqueLoop, if_pos hc]; exact ih acc h
    · simp only [uniqueLoop, if_neg hc]
      apply ih
      rw [List.map_append]
      refine List.Nodup.append h (by simp) ?_
      intro a ha hb
      simp only [List.map_cons, List.map_nil, List.mem_singleton] at hb
      subst hb
      rcases List.mem_map.mp ha with ⟨x, hx, hxid⟩
      exact hc (List.any_eq_true.mpr ⟨x, hx, by simp [hxid]⟩)

/-- Looking one id up in the output of the deduplication loop yields the
same entry as looking it up in the accumulator followed by the input. -/
theorem uniqueLoop_find? (l : List MatchSummary) :
    ∀ (acc : List MatchSummary) (i : Nat),
      (uniqueLoop acc l).find? (fun m => m.id == i) =
        (acc ++ l).find? (fun m => m.id == i) := by
  induction l with
  | nil => intro acc i; simp [uniqueLoop]
  | cons m t ih =>
    intro acc i
    by_cases hc : (acc.any fun x => x.id == m.id) = true
    · simp only [uniqueLoop, if_pos hc]
      rw [ih acc i, List.find?_append, List.find?_append]
      cases hacc : acc.find? (fun m => m.id == i) with
      | some a => simp
      | none =>
        simp only [Option.none_or]
        have hm : (m.id == i) = false := by
          rcases List.any_eq_true.mp hc with ⟨x, hx, hxm⟩
          have hxfail := List.find?_eq_none.mp hacc x hx
          by_contra hmi
          rw [Bool.not_eq_false] at hmi
          apply hxfail
          have h1 : x.id = m.id := by simpa using hxm
          have h2 : m.id = i := by simpa using hmi
          simp [h1, h2]
        rw [List.find?_cons_of_neg _ (by simp [hm])]
    · simp only [uniqueLoop, if_neg hc]
      rw [ih (acc ++ [m]) i]
      simp

/-- A link the href filter admitted always yields an entry. -/
theorem linkEntry?_isSome_of_admitted (x : Node) (hx : isLiveScoreLink x = true) :
    (linkEntry? x).isSome = true := by
  rw [isLiveScoreLink, Bool.and_eq_true] at hx
  rcases hx with ⟨-, h2⟩
  rcases Option.isSome_iff_exists.mp h2 with ⟨v, hv⟩
  simp [linkEntry?, hv]

/-- filterMap over a list on which the function never fails keeps the
length. -/
theorem length_filterMap_entries (l : List Node)
    (h : ∀ x ∈ l, (linkEntry? x).isSome = true) :
    (l.filterMap linkEntry?).length = l.length := by
  induction l with
  | nil => simp
  | cons a t ih =>
    have ha := h a (List.mem_cons_self a t)
    rcases Option.isSome_iff_exists.mp ha with ⟨e, he⟩
    rw [List.filterMap_cons, he]
    simp [ih (fun x hx => h x (List.mem_cons_of_mem a hx))]

/-! ## Claim theorems: the live-matches listing -/

/-- C2: for every document, the list returned by extract_live_matches
contains no two entries with the same id. -/
theorem extract_live_matches_ids_nodup (soup : Node) :
    ((extract_live_matches soup).map (fun m => m.id)).Nodup :=
  uniqueLoop_ids_nodup (entriesOf soup) [] (by simp)

/-- C3 counterexample: in docSameId two candidate links share id 5, the
first titled A and the last titled B; the extractor returns the entry of
the first occurrence, so last occurrence does not win. -/
theorem extract_live_matches_not_last_occurrence :
    (extract_live_matches docSameId).map (fun m => m.title) = ["A"] ∧
    (entriesOf docSameId).map (fun m => m.title) = ["A", "B"] :=
  ⟨rfl, rfl⟩

/-- C3 amended: deduplication keeps the first occurrence: for every
document and every id, the entry extract_live_matches returns for that
id equals the first entry derived for that id in document order. -/
theorem extract_live_matches_first_occurrence_wins (soup : Node) (i : Nat) :
    (extract_live_matches soup).find? (fun m => m.id == i) =
      (entriesOf soup).find? (fun m => m.id == i) := by
  have h := uniqueLoop_find? (entriesOf soup) [] i
  simpa [extract_live_matches] using h

/-- C8 counterexample: the only candidate link of docEmptyTitle derives
an empty title (no title attribute and no visible text), yet the
extractor returns an entry for it, with the empty string as title,
rather than skipping it. -/
theorem extract_live_matches_keeps_empty_title :
    extract_live_matches docEmptyTitle =
      [{ id := 7, teams := [], title := "", status := "Upcoming", start_time := none }] :=
  rfl

/-- C8 amended: no candidate link is skipped for an empty title: every
admitted link yields exactly one pre-deduplication entry (an empty
derived title appears as the empty string), and every candidate id
appears in the returned list. -/
theorem extract_live_matches_entry_per_link :
    (∀ soup : Node, (entriesOf soup).length = (liveLinks soup).length) ∧
    (∀ (soup : Node) (i : Nat),
      ((liveLinks soup).filterMap idOfLink).contains i = true →
        (extract_live_matches soup).any (fun m => m.id == i) = true) := by
  constructor
  · intro soup
    refine length_filterMap_entries (liveLinks soup) ?_
    intro x hx
    exact linkEntry?_isSome_of_admitted x (List.mem_filter.mp hx).2
  · intro soup i hcont
    have hmem : i ∈ (liveLinks soup).filterMap idOfLink := by
      simpa using hcont
    rcases List.mem_filterMap.mp hmem with ⟨link, hlink, hid⟩
    have hentry : linkEntry? link =
        some { id := i, teams := linkTeams link (linkTitle link), title := linkTitle link,
               status := linkStatus link (linkTitle link), start_time := linkStartTime link } := by
      simp [linkEntry?, hid]
    have hmem2 : _ ∈ entriesOf soup := List.mem_filterMap.mpr ⟨link, hlink, hentry⟩
    have hfind : ((entriesOf soup).find? (fun m => m.id == i)).isSome := by
      refine List.find?_isSome.mpr ⟨_, hmem2, ?_⟩
      simp
    have hfind2 : ((extract_live_matches soup).find? (fun m => m.id == i)).isSome := by
      have h := uniqueLoop_find? (entriesOf soup) [] i
      simpa [extract_live_matches, h] using hfind
    rcases List.find?_isSome.mp hfind2 with ⟨e, hemem, hpe⟩
    exact List.any_eq_true.mpr ⟨e, hemem, hpe⟩

/-- C8 witness: the empty-titled candidate of docEmptyTitle, id 7,
appears in the returned list. -/
theorem extract_live_matches_entry_per_link_witness :
    (extract_live_matches docEmptyTitle).any (fun m => m.id == 7) = true :=
  extract_live_matches_entry_per_link.2 docEmptyTitle 7 (by rfl)

/-- C9 counterexample: the candidate link of docOneSpan carries exactly
one full team-name span, and the returned entry has a teams list of
length one, neither empty nor a pair. -/
theorem extract_live_matches_one_team :
    (extract_live_matches docOneSpan).map (fun m => m.teams) = [["India"]] :=
  rfl

/-- C9 amended: span-derived teams lists have one element per nonempty
team span and can have any length; when no candidate link of the
document carries team spans, every returned entry has a teams list that
is empty or an ordered pair. -/
theorem extract_live_matches_teams_pair_without_spans (soup : Node)
    (hsp : (liveLinks soup).all
        (fun l => fullTeamSpanNames l == [] && shortTeamSpanNames l == []) = true) :
    ∀ m ∈ extract_live_matches soup, m.teams = [] ∨ m.teams.length = 2 := by
  intro m hm
  obtain ⟨rest, hr, hsub⟩ := uniqueLoop_eq_append (entriesOf soup) []
  rw [extract_live_matches, hr] at hm
  simp only [List.nil_append] at hm
  have hm2 : m ∈ entriesOf soup := hsub m hm
  rcases List.mem_filterMap.mp hm2 with ⟨link, hlink, he⟩
  have hsp2 := List.all_eq_true.mp hsp link hlink
  rw [Bool.and_eq_true] at hsp2
  have hfull : fullTeamSpanNames link = [] := by simpa using hsp2.1
  have hshort : shortTeamSpanNames link = [] := by simpa using hsp2.2
  unfold linkEntry? at he
  cases hid : idOfLink link with
  | none => rw [hid] at he; exact absurd he (by simp)
  | some v =>
    rw [hid] at he
    have he2 := Option.some.inj he
    subst he2
    show linkTeams link (linkTitle link) = [] ∨ (linkTeams link (linkTitle link)).length = 2
    unfold linkTeams
    simp only [hfull, hshort, List.isEmpty_nil, if_true, Bool.true_and]
    split
    · split
      · split
        · right; rfl
        · left; rfl
      · left; rfl
    · left; rfl

/-- C9 witness: the entry of docTitleTeams, whose link has no team
spans, has a pair of teams parsed from its title. -/
theorem extract_live_matches_teams_pair_without_spans_witness :
    entryTitleTeams.teams = [] ∨ entryTitleTeams.teams.length = 2 :=
  extract_live_matches_teams_pair_without_spans docTitleTeams (by rfl)
    entryTitleTeams
    (by rw [show extract_live_matches docTitleTeams = [entryTitleTeams] from rfl]
        exact List.mem_singleton.mpr rfl)

/-! ## Claim theorems: the status validity filter -/

/-- C4: the capitalized denylist entries never fire, because the filter
compares them against a lowercased candidate: a candidate containing
the navigation label Schedule (with a status keyword) is accepted,
while the lowercase denylist entries do fire. -/
theorem is_valid_status_capitalized_denylist :
    is_valid_status "Schedule won" = true ∧ is_valid_status "short ball won" = false :=
  ⟨rfl, rfl⟩

/-! ## Claim theorems: the legacy failure response -/

/-- C10: json_error_response is the fixed object with exactly the 22
legacy fields, every one holding the string Data Not Found, returned
with HTTP status 200. -/
theorem json_error_response_fixed_object :
    json_error_response.1.map Prod.fst =
      ["title", "update", "livescore", "runrate", "batterone", "batsmanonerun",
       "batsmanoneball", "batsmanonesr", "battertwo", "batsmantworun", "batsmantwoball",
       "batsmantwosr", "bowlerone", "bowleroneover", "bowleronerun", "bowleronewickers",
       "bowleroneeconomy", "bowlertwo", "bowlertwoover", "bowlertworun", "bowlertwowickers",
       "bowlertwoeconomy"] ∧
    json_error_response.1.all (fun kv => kv.2 == "Data Not Found") = true ∧
    json_error_response.1.length = 22 ∧ json_error_response.2 = 200 :=
  ⟨rfl, rfl, rfl, rfl⟩

/-! ## Claim theorems: numeric coercion in the row extractors -/

/-- The guarded float coercion fails exactly when the guard passes on a
text with at least two dots. -/
theorem coerceFloat?_eq_none {s : String} :
    coerceFloat? s = none ↔ (floatGuard s = true ∧ 2 ≤ dotCount s) := by
  constructor
  · intro h
    unfold coerceFloat? at h
    by_cases hg : floatGuard s = true
    · rw [if_pos hg] at h
      by_cases hd : dotCount s ≤ 1
      · rw [if_pos hd] at h; exact absurd h (by simp)
      · exact ⟨hg, by omega⟩
    · rw [if_neg hg] at h; exact absurd h (by simp)
  · rintro ⟨hg, hd⟩
    unfold coerceFloat?
    rw [if_pos hg, if_neg (by omega)]

/-- C5 amended: a statistic cell failing the digit guard coerces to 0
and the row is kept; a row is dropped only when it has too few cells,
no profile link, or a float cell whose guard passed with two or more
dots (the caught ValueError); in every case the extractors return
normally. -/
theorem row_numeric_coercion :
    (∀ row : Node, battingRow row = none →
       (rowCells row).length < 7 ∨ (rowProfileLink row).isSome = false ∨
       (floatGuard (sixthCellText row) = true ∧ 2 ≤ dotCount (sixthCellText row))) ∧
    (∀ row : Node, 7 ≤ (rowCells row).length → (rowProfileLink row).isSome = true →
       floatGuard (sixthCellText row) = false →
       ∃ f, battingRow row = some f ∧ f.sr = 0 ∧
         (pyStrIsdigit (cellText row 2) = false → f.runs = 0) ∧
         (pyStrIsdigit (cellText row 3) = false → f.balls = 0) ∧
         (pyStrIsdigit (cellText row 4) = false → f.fours = 0) ∧
         (pyStrIsdigit (cellText row 5) = false → f.sixes = 0)) ∧
    (∀ row : Node, bowlingRow row = none →
       (rowCells row).length < 7 ∨ (rowProfileLink row).isSome = false ∨
       (floatGuard (cellText row 2) = true ∧ 2 ≤ dotCount (cellText row 2)) ∨
       (floatGuard (sixthCellText row) = true ∧ 2 ≤ dotCount (sixthCellText row))) ∧
    (∀ row : Node, 7 ≤ (rowCells row).length → (rowProfileLink row).isSome = true →
       floatGuard (cellText row 2) = false → floatGuard (sixthCellText row) = false →
       ∃ f, bowlingRow row = some f ∧ f.overs = 0 ∧ f.econ = 0 ∧
         (pyStrIsdigit (cellText row 3) = false → f.maidens = 0) ∧
         (pyStrIsdigit (cellText row 4) = false → f.runs = 0) ∧
         (pyStrIsdigit (cellText row 5) = false → f.wickets = 0)) := by
  refine ⟨?_, ?_, ?_, ?_⟩
  · intro row h
    unfold battingRow at h
    by_cases h7 : 7 ≤ (rowCells row).length
    · rw [if_pos h7] at h
      cases hl : rowProfileLink row with
      | none => right; left; simp [hl]
      | some lnk =>
        rw [hl] at h
        cases hf : coerceFloat? (sixthCellText row) with
        | some sr => rw [hf] at h; exact absurd h (by simp)
        | none => right; right; exact coerceFloat?_eq_none.mp hf
    · left; omega
  · intro row h7 hl hf
    rcases Option.isSome_iff_exists.mp hl with ⟨lnk, hlnk⟩
    have hsr : coerceFloat? (sixthCellText row) = some 0 := by
      simp [coerceFloat?, hf]
    refine ⟨{ name := cleanBatName lnk, runs := coerceInt (cellText row 2),
              balls := coerceInt (cellText row 3), fours := coerceInt (cellText row 4),
              sixes := coerceInt (cellText row 5), sr := 0 }, ?_, rfl, ?_, ?_, ?_, ?_⟩
    · unfold battingRow
      rw [if_pos h7, hlnk, hsr]
    · intro h2; simp [coerceInt, h2]
    · intro h3; simp [coerceInt, h3]
    · intro h4; simp [coerceInt, h4]
    · intro h5; simp [coerceInt, h5]
  · intro row h
    unfold bowlingRow at h
    by_cases h7 : 7 ≤ (rowCells row).length
    · rw [if_pos h7] at h
      cases hl : rowProfileLink row with
      | none => right; left; simp [hl]
      | some lnk =>
        rw [hl] at h
        cases ho : coerceFloat? (cellText row 2) with
        | none => right; right; left; exact coerceFloat?_eq_none.mp ho
        | some overs =>
          rw [ho] at h
          cases he : coerceFloat? (sixthCellText row) with
          | some econ => rw [he] at h; exact absurd h (by simp)
          | none => right; right; right; exact coerceFloat?_eq_none.mp he
    · left; omega
  · intro row h7 hl ho he
    rcases Option.isSome_iff_exists.mp hl with ⟨lnk, hlnk⟩
    have hov : coerceFloat? (cellText row 2) = some 0 := by
      simp [coerceFloat?, ho]
    have hec : coerceFloat? (sixthCellText row) = some 0 := by
      simp [coerceFloat?, he]
    refine ⟨{ name := getTextStrip lnk, overs := 0, maidens := coerceInt (cellText row 3),
              runs := coerceInt (cellText row 4), wickets := coerceInt (cellText row 5),
              econ := 0 }, ?_, rfl, rfl, ?_, ?_, ?_⟩
    · unfold bowlingRow
      rw [if_pos h7, hlnk, hov, hec]
    · intro h3; simp [coerceInt, h3]
    · intro h4; simp [coerceInt, h4]
    · intro h5; simp [coerceInt, h5]

/-- C5 witness: the row with runs cell x and strike-rate cell abc is
kept, with both statistics coerced to zero. -/
theorem row_numeric_coercion_witness :
    (battingRow rowAbc).isSome = true ∧
    ((battingRow rowAbc).getD fallbackFig).sr = 0 ∧
    ((battingRow rowAbc).getD fallbackFig).runs = 0 := by
  obtain ⟨f, hf, hsr, hruns, -, -, -⟩ :=
    row_numeric_coercion.2.1 rowAbc (by decide) (by rfl) (by rfl)
  refine ⟨?_, ?_, ?_⟩
  · rw [hf]; rfl
  · rw [hf]; simpa using hsr
  · rw [hf]; simpa using hruns (by rfl)

/-- C5 counterexample: the batting row whose strike-rate cell reads
1.2.3 has seven cells and a profile link, yet extract_batting drops it
entirely instead of keeping it with a zero strike rate. -/
theorem extract_batting_drops_guarded_bad_float :
    extract_batting docMultiDot = [] ∧ (rowCells rowMultiDot).length = 7 ∧
    (rowProfileLink rowMultiDot).isSome = true ∧ sixthCellText rowMultiDot = "1.2.3" :=
  ⟨rfl, rfl, rfl, rfl⟩

/-! ## Claim theorems: batting and bowling list shape -/

/-- The batting table loop yields nothing, or exactly the row-by-row
figures of one of the tables. -/
theorem battingFromTables_shape (ts : List Node) :
    battingFromTables ts = [] ∨
      ∃ t ∈ ts, battingFromTables ts = (tableTrsTail t).filterMap battingRow := by
  induction ts with
  | nil => left; rfl
  | cons t ts ih =>
    by_cases hb : (tableBatting t).isEmpty = true
    · rcases ih with h | ⟨u, hu, he⟩
      · left; simpa [battingFromTables, hb] using h
      · right; exact ⟨u, List.mem_cons_of_mem t hu, by simpa [battingFromTables, hb] using he⟩
    · right
      refine ⟨t, List.mem_cons_self t ts, ?_⟩
      have hv : battingFromTables (t :: ts) = tableBatting t := by
        simp [battingFromTables, hb]
      rw [hv]
      unfold tableBatting
      by_cases hh : headerHasBatter t = true
      · rw [if_pos hh]
      · exfalso; apply hb; simp [tableBatting, hh]

/-- The bowling table loop yields nothing, or exactly the row-by-row
figures of one of the tables. -/
theorem bowlingFromTables_shape (ts : List Node) :
    bowlingFromTables ts = [] ∨
      ∃ t ∈ ts, bowlingFromTables ts = (tableTrsTail t).filterMap bowlingRow := by
  induction ts with
  | nil => left; rfl
  | cons t ts ih =>
    by_cases hb : (tableBowling t).isEmpty = true
    · rcases ih with h | ⟨u, hu, he⟩
      · left; simpa [bowlingFromTables, hb] using h
      · right; exact ⟨u, List.mem_cons_of_mem t hu, by simpa [bowlingFromTables, hb] using he⟩
    · right
      refine ⟨t, List.mem_cons_self t ts, ?_⟩
      have hv : bowlingFromTables (t :: ts) = tableBowling t := by
        simp [bowlingFromTables, hb]
      rw [hv]
      unfold tableBowling
      by_cases hh : headerHasBowler t = true
      · rw [if_pos hh]
      · exfalso; apply hb; simp [tableBowling, hh]

/-- C7 amended: each returned batting or bowling list is empty, or is
the order-preserving row-by-row map of a single strategy: the rows
after the header of one table, or the grid rows; every productive row
yields its own entry, so a name repeated across rows stays repeated,
and only whole strategies are mutually exclusive. -/
theorem extract_lists_single_strategy (soup : Node) :
    (extract_batting soup = [] ∨
      (∃ t ∈ findAllN (nodeIsTag "table") soup,
        extract_batting soup = (tableTrsTail t).filterMap battingRow) ∨
      extract_batting soup = (batGridRows soup).filterMap battingGridRow) ∧
    (extract_bowling soup = [] ∨
      (∃ t ∈ findAllN (nodeIsTag "table") soup,
        extract_bowling soup = (tableTrsTail t).filterMap bowlingRow) ∨
      extract_bowling soup = (bowlGridRows soup).filterMap bowlingGridRow) := by
  constructor
  · by_cases hb : (battingFromTables (findAllN (nodeIsTag "table") soup)).isEmpty = true
    · right; right; simp [extract_batting, hb]
    · rcases battingFromTables_shape (findAllN (nodeIsTag "table") soup) with h | ⟨t, ht, he⟩
      · exfalso; apply hb; simp [h]
      · right; left
        exact ⟨t, ht, by simpa [extract_batting, hb] using he⟩
  · by_cases hb : (bowlingFromTables (findAllN (nodeIsTag "table") soup)).isEmpty = true
    · right; right; simp [extract_bowling, hb]
    · rcases bowlingFromTables_shape (findAllN (nodeIsTag "table") soup) with h | ⟨t, ht, he⟩
      · exfalso; apply hb; simp [h]
      · right; left
        exact ⟨t, ht, by simpa [extract_bowling, hb] using he⟩

/-- C7 counterexample: the batting table of docDupNames lists the same
player name on two rows and extract_batting keeps both occurrences, in
document order, rather than collapsing them to the first. -/
theorem extract_batting_duplicate_names_kept :
    (extract_batting docDupNames).map (fun f => f.name) = ["AB", "AB"] :=
  rfl

/-! ## Claim theorems: structured-path dispatch of extract_match_data -/

/-- C1 amended: whenever the decoded payload is truthy and
parse_scorecard_from_json yields a record, that record is returned
immediately, whatever its title; the HTML fallback runs exactly when
the payload is absent, falsy, or the parser yields nothing. -/
theorem extract_match_data_dispatch :
    (∀ (md : MatchDoc) (j : JVal) (d : MatchDetail),
       extract_json_data md = some j → jTruthy j = true →
       parse_scorecard_from_json j = some d → extract_match_data md = d) ∧
    (∀ md : MatchDoc,
       (extract_json_data md = none ∨
        ∃ j, extract_json_data md = some j ∧
          (jTruthy j = false ∨ parse_scorecard_from_json j = none)) →
       extract_match_data md = extract_match_data_html md.soup) := by
  constructor
  · intro md j d hj ht hp
    unfold extract_match_data
    rw [hj]
    simp [ht, hp]
  · intro md h
    unfold extract_match_data
    rcases h with hnone | ⟨j, hj, hcase⟩
    · rw [hnone]
    · rw [hj]
      rcases hcase with ht | hp
      · simp [ht]
      · cases htv : jTruthy j
        · simp [htv]
        · simp [htv, hp]

/-- C1 counterexample: the payload of mdEmptyTitle is decoded and
recognized but carries no matchDescription; its record, with the empty
title, is returned as is, while the HTML fallback on the same page
would have found the heading. -/
theorem extract_match_data_no_fallback_on_empty_title :
    (extract_match_data mdEmptyTitle).title = some "" ∧
    (extract_match_data_html soupH1).title = some "India vs Australia" ∧
    extract_match_data mdEmptyTitle ≠ extract_match_data_html mdEmptyTitle.soup := by
  refine ⟨rfl, rfl, ?_⟩
  intro h
  have h2 := congrArg MatchDetail.title h
  have h3 : (some "" : Option String) = some "India vs Australia" := h2
  simp at h3

/-- C1 witness: a titled payload is returned immediately by the
dispatch. -/
theorem extract_match_data_dispatch_witness :
    extract_match_data mdTitled = dTitled :=
  extract_match_data_dispatch.1 mdTitled jTitled dTitled rfl rfl rfl

/-! ## Claim theorems: the structured-path run rate -/

/-- The score block assigns no run rate without score details, no run
rate on zero overs, and the rounded quotient of the raw runs value by
the overs whenever the overs are positive. -/
theorem scoreBlock_spec (m : JVal) (cs : Option ScoreLine) (rr : Option ℚ)
    (h : scoreBlock m = some (cs, rr)) :
    (cs = none → rr = none) ∧
    (∀ c : ScoreLine, cs = some c →
      ((c.overs = 0 → rr = none) ∧
       (0 < c.overs → ∃ r : ℚ, c.runs = JVal.num r ∧ rr = some (round2 (r / c.overs))))) := by
  unfold scoreBlock at h
  split at h
  · injection h with h2
    injection h2 with h3 h4
    subst h3; subst h4
    exact ⟨fun _ => rfl, fun c hc => absurd hc (by simp)⟩
  · split at h
    case _ hpos =>
      split at h
      · exact absurd h (by simp)
      case _ overs hov =>
        split at h
        · exact absurd h (by simp)
        case _ btd hbtd =>
          split at h
          case _ hpov =>
            split at h
            case _ r hr =>
              injection h with h2
              injection h2 with h3 h4
              subst h3; subst h4
              constructor
              · intro hx; exact absurd hx (by simp)
              · intro c hc
                injection hc with hc2
                subst hc2
                constructor
                · intro h0
                  have h0b : overs = 0 := h0
                  rw [h0b] at hpov
                  exact absurd hpov (lt_irrefl 0)
                · intro _
                  exact ⟨r, hr, rfl⟩
            · exact absurd h (by simp)
          case _ hneg =>
            injection h with h2
            injection h2 with h3 h4
            subst h3; subst h4
            constructor
            · intro hx; exact absurd hx (by simp)
            · intro c hc
              injection hc with hc2
              subst hc2
              exact ⟨fun _ => rfl, fun hpos2 => absurd hpos2 hneg⟩
    case _ hfalse =>
      injection h with h2
      injection h2 with h3 h4
      subst h3; subst h4
      exact ⟨fun _ => rfl, fun c hc => absurd hc (by simp)⟩
  · split at h
    · exact absurd h (by simp)
    · injection h with h2
      injection h2 with h3 h4
      subst h3; subst h4
      exact ⟨fun _ => rfl, fun c hc => absurd hc (by simp)⟩

/-- C6: in every record the structured path yields, the run rate is the
runs of the first innings score details divided by its overs, rounded
to two decimals, whenever the overs are positive, and is absent
whenever the overs are zero or no score details are present. -/
theorem run_rate_from_first_innings (j : JVal) (d : MatchDetail)
    (h : parse_scorecard_from_json j = some d) :
    (d.current_score = none → d.run_rate = none) ∧
    (∀ c : ScoreLine, d.current_score = some c →
      ((c.overs = 0 → d.run_rate = none) ∧
       (0 < c.overs → ∃ r : ℚ, c.runs = JVal.num r ∧
          d.run_rate = some (round2 (r / c.overs))))) := by
  unfold parse_scorecard_from_json at h
  split at h
  · exact absurd h (by simp)
  case _ ctx hctx =>
    split at h
    · exact absurd h (by simp)
    case _ lists hlists =>
      split at h
      · exact absurd h (by simp)
      case _ csrr hcsrr =>
        injection h with h2
        subst h2
        obtain ⟨cs, rr⟩ := csrr
        exact scoreBlock_spec ctx.1 cs rr hcsrr

/-- C6 witness: for the payload with 85 runs off 10 overs the parsed
record carries run rate round2 of 85 over 10, that is 8.5. -/
theorem run_rate_from_first_innings_witness :
    dScore.run_rate = some (round2 ((85 : ℚ) / 10)) := by
  obtain ⟨r, hr, hrr⟩ :=
    ((run_rate_from_first_innings jScore dScore rfl).2 csScore rfl).2 (by norm_num [csScore])
  have hr2 : JVal.num 85 = JVal.num r := hr
  injection hr2 with hr3
  rw [← hr3] at hrr
  exact hrr
